import Mathlib

/-!
Formal model of the WebRTC point-streaming scripts
(`src/scripts/webrtc_client.py`, `src/scripts/webrtc_server.py`).

The development embeds, as executable Lean definitions:

* the binary frame codec — the client builds a `(points, 3)` array of
  `np.float32`, overwrites row 0 with the frame number, and sends
  `data.tobytes()` (client lines 96–99); the server decodes with
  `np.frombuffer(message, dtype=np.float32).reshape(-1, 3)` and reads
  `arr[0][0]` (server lines 50–51, all inside one `try` block);
* the pacing loop `send_data_stream` (client lines 81–105);
* the client signaling exchange `connect` (client lines 54–79);
* the server offer handler `handle_offer`, its connection registry, and the
  data-channel message handler `on_message` (server lines 24–55, 143–156).

Machine floats appear only as the float32 value embedded for the sequence
marker; that conversion is modelled exactly on naturals (round to nearest,
ties to even, at 24 significand bits), and samples travel as 32-bit IEEE-754
bit patterns (naturals below 2^32).  NumPy's `np.float32` dtype and
`tobytes`/`frombuffer` use the byte order of the host CPU, so the byte-level
codec is parameterised by a `ByteOrder`.
-/

/-! ## Float32 arithmetic on naturals -/

/-- Fuel-driven floor of the base-2 logarithm (`lg2aux n n` computes
`Nat.log2 n`, but by structural recursion so the kernel can evaluate it). -/
def lg2aux (fuel n : Nat) : Nat :=
  match fuel with
  | 0 => 0
  | f + 1 => if n ≤ 1 then 0 else lg2aux f (n / 2) + 1

/-- Floor of the base-2 logarithm, kernel-computable. -/
def log2n (n : Nat) : Nat := lg2aux n n

/-- Value of the IEEE-754 binary32 float nearest to the natural number `n`
(round to nearest, ties to even): exactly what numpy computes when a Python
integer is stored into a `float32` array, as in `data[0] = frame`
(client line 97).  Naturals below 2^24 are exact; above, the significand is
truncated to 24 bits with round-half-to-even. -/
def f32roundNat (n : Nat) : Nat :=
  if n < 16777216 then n
  else
    let s := log2n n - 23
    let q := n / 2 ^ s
    let r := n % 2 ^ s
    let half := 2 ^ s / 2
    if half < r then (q + 1) * 2 ^ s
    else if r = half then (if q % 2 = 1 then (q + 1) * 2 ^ s else q * 2 ^ s)
    else q * 2 ^ s

/-- IEEE-754 binary32 bit pattern (as a natural below 2^32) of a nonnegative
integer value `v` that is exactly representable: sign 0, biased exponent
`log2 v + 127`, 23-bit fraction field. -/
def f32bitsOfNat (v : Nat) : Nat :=
  if v = 0 then 0
  else
    let k := log2n v
    let frac := if 23 ≤ k then v / 2 ^ (k - 23) % 8388608 else v * 2 ^ (23 - k) % 8388608
    (k + 127) * 8388608 + frac

/-- Equality test between a float32 bit pattern `p` and a natural number `n`,
as Python evaluates `arr[0][0] == n` between a `np.float32` and an `int`:
true exactly when the float's real value is the integer `n`.  A positive
integer is the value of a (nonnegative, finite) pattern exactly when it is
unchanged by float32 rounding and `p` is its encoding; `0` is the value of
both `+0.0` (pattern 0) and `-0.0` (pattern 2^31). -/
def f32eqNat (p n : Nat) : Bool :=
  if n = 0 then p == 0 || p == 2147483648
  else (f32roundNat n == n) && (p == f32bitsOfNat n)

/-! ## Byte-level serialization

`np.float32` is the host's native 4-byte float dtype, so `tobytes` (client
line 98) lays each sample component out in the host CPU's byte order, and
`np.frombuffer` (server line 50) reads it back the same way. -/

/-- Byte order of the host CPU running numpy. -/
inductive ByteOrder where
  | little
  | big
deriving DecidableEq

/-- Reassemble one 32-bit word from four bytes in the given order. -/
def bytesToWord (o : ByteOrder) (b0 b1 b2 b3 : Nat) : Nat :=
  match o with
  | .little => b0 + b1 * 256 + b2 * 65536 + b3 * 16777216
  | .big => b3 + b2 * 256 + b1 * 65536 + b0 * 16777216

/-- Serialize one 32-bit word (a float32 bit pattern) to four bytes in the
given order. -/
def wordBytes (o : ByteOrder) (w : Nat) : List Nat :=
  match o with
  | .little => [w % 256, w / 256 % 256, w / 65536 % 256, w / 16777216 % 256]
  | .big => [w / 16777216 % 256, w / 65536 % 256, w / 256 % 256, w % 256]

/-- Split a byte string into consecutive 32-bit words, as
`np.frombuffer(message, dtype=np.float32)` does (any trailing group of fewer
than four bytes is never consulted: `decode` rejects such lengths first). -/
def toWords (o : ByteOrder) : List Nat → List Nat
  | b0 :: b1 :: b2 :: b3 :: rest => bytesToWord o b0 b1 b2 b3 :: toWords o rest
  | _ => []

/-- Flatten a list of 3-component samples to the row-major word sequence of
the `(points, 3)` numpy array. -/
def words3 : List (Nat × Nat × Nat) → List Nat
  | [] => []
  | (a, b, c) :: rest => a :: b :: c :: words3 rest

/-- Group a word sequence into rows of three, as `reshape(-1, 3)` views the
word array (defined on multiples of three; `decode` checks that first). -/
def group3 : List Nat → List (Nat × Nat × Nat)
  | a :: b :: c :: rest => (a, b, c) :: group3 rest
  | _ => []

/-- Serialize a word sequence to bytes, four bytes per word. -/
def wordsToBytes (o : ByteOrder) : List Nat → List Nat
  | [] => []
  | w :: ws => wordBytes o w ++ wordsToBytes o ws

/-! ## Frame codec -/

/-- Failure of the server's decode block (server lines 48–53, one `try`):
`np.frombuffer` raises when the byte count is not a multiple of the 4-byte
itemsize; `reshape(-1, 3)` raises when the float count is not a multiple of
3; and on an empty (0-byte) message both succeed with a `(0, 3)` array but
`arr[0][0]` in the log statement raises `IndexError`.  All three are caught
by the same `except` clause — the spec calls the whole class
`MalformedFrameError`. -/
inductive MalformedFrameError where
  | itemsizeMismatch
  | reshapeMismatch
  | emptyIndex
deriving DecidableEq

/-- The server's decode block (server lines 50–51):
`arr = np.frombuffer(message, dtype=np.float32).reshape(-1, 3)` followed by
the read of `arr[0][0]`; returns the list of 3-component samples (as float32
bit patterns) or the error the block raises. -/
def decode (o : ByteOrder) (msg : List Nat) : Except MalformedFrameError (List (Nat × Nat × Nat)) :=
  if msg.length % 4 ≠ 0 then
    Except.error MalformedFrameError.itemsizeMismatch
  else if (toWords o msg).length % 3 ≠ 0 then
    Except.error MalformedFrameError.reshapeMismatch
  else
    match group3 (toWords o msg) with
    | [] => Except.error MalformedFrameError.emptyIndex
    | r :: rs => Except.ok (r :: rs)

/-- Bit pattern of the sequence marker the client stores: `data[0] = frame`
casts the integer to float32 (rounding if not representable) and stores its
pattern in all three components of row 0. -/
def f32marker (seq : Nat) : Nat := f32bitsOfNat (f32roundNat seq)

/-- The client's frame construction (client lines 96–97): a `(points, 3)`
array of random float32 payload rows (here: arbitrary given bit patterns)
whose row 0 is overwritten with the frame sequence number. -/
def encodeFrame (seq : Nat) (rows : List (Nat × Nat × Nat)) : List (Nat × Nat × Nat) :=
  match rows with
  | [] => []
  | _ :: rest => (f32marker seq, f32marker seq, f32marker seq) :: rest

/-- The client's `binary_data = data.tobytes()` (client line 98): row-major
bytes of the frame, four bytes per component in the host's byte order. -/
def encode (o : ByteOrder) (seq : Nat) (rows : List (Nat × Nat × Nat)) : List Nat :=
  wordsToBytes o (words3 (encodeFrame seq rows))

/-! ## Basic codec lemmas -/

theorem lg2aux_eq_log2 (fuel n : Nat) (h : n ≤ fuel) : lg2aux fuel n = Nat.log2 n := by
  induction fuel generalizing n with
  | zero =>
    have hn : n = 0 := Nat.le_zero.mp h
    subst hn
    rw [Nat.log2]
    simp [lg2aux]
  | succ f ih =>
    rw [Nat.log2, lg2aux]
    by_cases h1 : n ≤ 1
    · have h2 : ¬ 2 ≤ n := by omega
      simp [h1, h2]
    · have h2 : 2 ≤ n := by omega
      simp [h1, h2]
      exact ih (n / 2) (by omega)

theorem log2n_eq_log2 (n : Nat) : log2n n = Nat.log2 n := lg2aux_eq_log2 n n (Nat.le_refl n)

theorem f32roundNat_of_le (seq : Nat) (h : seq ≤ 16777216) : f32roundNat seq = seq := by
  by_cases h1 : seq < 16777216
  · simp [f32roundNat, h1]
  · have h2 : seq = 16777216 := by omega
    subst h2
    decide

theorem f32bitsOfNat_lt (v : Nat) (h : v ≤ 16777216) : f32bitsOfNat v < 4294967296 := by
  by_cases h0 : v = 0
  · simp [f32bitsOfNat, h0]
  · have hk : log2n v ≤ 24 := by
      rw [log2n_eq_log2]
      have := (Nat.log2_lt h0 (k := 25)).mpr (by omega)
      omega
    have hfrac :
        (if 23 ≤ log2n v then v / 2 ^ (log2n v - 23) % 8388608
         else v * 2 ^ (23 - log2n v) % 8388608) < 8388608 := by
      by_cases hc : 23 ≤ log2n v <;> simp [hc] <;> exact Nat.mod_lt _ (by decide)
    simp only [f32bitsOfNat, h0, if_false]
    have : (log2n v + 127) * 8388608 ≤ 151 * 8388608 :=
      Nat.mul_le_mul_right _ (by omega)
    omega

theorem wordBytes_length (o : ByteOrder) (w : Nat) : (wordBytes o w).length = 4 := by
  cases o <;> rfl

theorem toWords_length (o : ByteOrder) : ∀ bs : List Nat, (toWords o bs).length = bs.length / 4
  | [] => by simp [toWords]
  | [a] => by simp [toWords]
  | [a, b] => by simp [toWords]
  | [a, b, c] => by simp [toWords]
  | a :: b :: c :: d :: rest => by
      rw [toWords, List.length_cons, toWords_length o rest]
      simp only [List.length_cons]
      omega

theorem toWords_wordBytes (o : ByteOrder) (w : Nat) (bs : List Nat) (h : w < 4294967296) :
    toWords o (wordBytes o w ++ bs) = w :: toWords o bs := by
  cases o <;> simp [wordBytes, toWords, bytesToWord] <;> omega

theorem toWords_wordsToBytes (o : ByteOrder) (ws : List Nat)
    (h : ∀ w ∈ ws, w < 4294967296) :
    toWords o (wordsToBytes o ws) = ws := by
  induction ws with
  | nil => cases o <;> rfl
  | cons w ws ih =>
    rw [wordsToBytes, toWords_wordBytes o w _ (h w (List.mem_cons_self w ws))]
    rw [ih (fun x hx => h x (List.mem_cons_of_mem w hx))]

theorem group3_words3 (rows : List (Nat × Nat × Nat)) : group3 (words3 rows) = rows := by
  induction rows with
  | nil => rfl
  | cons r rs ih =>
    obtain ⟨a, b, c⟩ := r
    rw [words3, group3, ih]

theorem wordsToBytes_length (o : ByteOrder) (ws : List Nat) :
    (wordsToBytes o ws).length = 4 * ws.length := by
  induction ws with
  | nil => rfl
  | cons w ws ih =>
    rw [wordsToBytes, List.length_append, wordBytes_length, ih, List.length_cons]
    omega

theorem words3_length (rows : List (Nat × Nat × Nat)) :
    (words3 rows).length = 3 * rows.length := by
  induction rows with
  | nil => rfl
  | cons r rs ih =>
    obtain ⟨a, b, c⟩ := r
    rw [words3]
    simp [ih]
    omega

theorem words3_lt (rows : List (Nat × Nat × Nat))
    (h : ∀ t ∈ rows, t.1 < 4294967296 ∧ t.2.1 < 4294967296 ∧ t.2.2 < 4294967296) :
    ∀ w ∈ words3 rows, w < 4294967296 := by
  induction rows with
  | nil => intro w hw; cases hw
  | cons r rs ih =>
    obtain ⟨a, b, c⟩ := r
    intro w hw
    rw [words3] at hw
    simp only [List.mem_cons] at hw
    have hr := h (a, b, c) (List.mem_cons_self _ _)
    rcases hw with h1 | h1 | h1 | h1
    · exact h1 ▸ hr.1
    · exact h1 ▸ hr.2.1
    · exact h1 ▸ hr.2.2
    · exact ih (fun t ht => h t (List.mem_cons_of_mem _ ht)) w h1

/-- Round trip of the codec on one host: decoding the bytes of an encoded
frame recovers the payload rows unchanged and row 0 as the float32 of the
sequence number (exact here because `seq ≤ 2^24`). -/
theorem decode_encode (o : ByteOrder) (seq : Nat) (r : Nat × Nat × Nat)
    (rs : List (Nat × Nat × Nat)) (hseq : seq ≤ 16777216)
    (hrows : ∀ t ∈ rs, t.1 < 4294967296 ∧ t.2.1 < 4294967296 ∧ t.2.2 < 4294967296) :
    decode o (encode o seq (r :: rs)) =
      Except.ok ((f32bitsOfNat seq, f32bitsOfNat seq, f32bitsOfNat seq) :: rs) := by
  have hm : f32marker seq = f32bitsOfNat seq := by
    rw [f32marker, f32roundNat_of_le seq hseq]
  have hmlt : f32marker seq < 4294967296 := by
    rw [hm]
    exact f32bitsOfNat_lt seq hseq
  have henc : encodeFrame seq (r :: rs)
      = (f32marker seq, f32marker seq, f32marker seq) :: rs := rfl
  have hwlt : ∀ w ∈ words3 (encodeFrame seq (r :: rs)), w < 4294967296 := by
    apply words3_lt
    rw [henc]
    intro t ht
    simp only [List.mem_cons] at ht
    rcases ht with h1 | h1
    · subst h1
      exact ⟨hmlt, hmlt, hmlt⟩
    · exact hrows t h1
  have htw : toWords o (encode o seq (r :: rs)) = words3 (encodeFrame seq (r :: rs)) :=
    toWords_wordsToBytes o _ hwlt
  have hlen : (encode o seq (r :: rs)).length = 4 * (3 * (rs.length + 1)) := by
    rw [encode, wordsToBytes_length, words3_length, henc, List.length_cons]
  have hlen3 : (words3 (encodeFrame seq (r :: rs))).length % 3 = 0 := by
    rw [words3_length, henc, List.length_cons]
    omega
  unfold decode
  rw [htw, hlen]
  rw [if_neg (by omega)]
  rw [if_neg (by simp [hlen3])]
  rw [group3_words3, henc, hm]

/-! ## FramePacer: the client transmission loop -/

/-- Failure of a single `channel.send` call, as reported by the transport
engine: the channel is no longer open (aiortc raises `InvalidStateError`),
the engine rejects for backpressure, or any other engine error. -/
inductive TransportError where
  | channelClosed
  | backpressure
  | engineError
deriving DecidableEq

/-- Outcome the channel/engine gives one send call. -/
inductive SendOutcome where
  | delivered
  | failed (e : TransportError)
deriving DecidableEq

/-- Record of one iteration of the pacing loop: the sequence number embedded
in the frame that was built and sent, and the outcome of the send call. -/
structure Attempt where
  seq : Nat
  outcome : SendOutcome
deriving DecidableEq

/-- The client's pacing loop (client lines 94–103): iteration `frame`
encodes a frame carrying sequence number `frame` and calls
`self.channel.send` inside a `try` block; the `except Exception` clause
catches any send failure and only logs it, so the loop records one attempt
per iteration and always proceeds to the next tick.  `ch t` is the outcome
the channel gives the send of tick `t`; the second argument counts the
remaining ticks. -/
def pacerLoop (ch : Nat → SendOutcome) : Nat → Nat → List Attempt
  | _, 0 => []
  | frame, rem + 1 => Attempt.mk frame (ch frame) :: pacerLoop ch (frame + 1) rem

/-- `send_data_stream(duration, frequency, ...)` (client lines 81–105):
computes `num_frames = duration * frequency` (both parameters are `int`s,
so `int(num_frames)` — and the spec's `round` — is exactly the product) and
runs the loop `for frame in range(int(num_frames))`.  Returns the list of
send attempts the run performs, in order. -/
def send_data_stream (duration frequency : Nat) (ch : Nat → SendOutcome) : List Attempt :=
  pacerLoop ch 0 (duration * frequency)

/-- Behavior of a channel that stays OPEN and accepts every send. -/
def allOpen : Nat → SendOutcome := fun _ => SendOutcome.delivered

/-- Behavior of a channel that is CLOSED for the entire run: every send
raises, reported as a channel-closed transport failure. -/
def allClosed : Nat → SendOutcome := fun _ => SendOutcome.failed TransportError.channelClosed

/-- Behavior of a channel that rejects exactly the send of tick 1 and
accepts every other send. -/
def oneFail : Nat → SendOutcome := fun t =>
  if t = 1 then SendOutcome.failed TransportError.backpressure else SendOutcome.delivered

theorem pacerLoop_eq (ch : Nat → SendOutcome) (n k : Nat) :
    pacerLoop ch k n = (List.range' k n).map (fun i => Attempt.mk i (ch i)) := by
  induction n generalizing k with
  | zero => rfl
  | succ m ih => rw [pacerLoop, List.range'_succ, List.map_cons, ih]

theorem send_data_stream_eq (d f : Nat) (ch : Nat → SendOutcome) :
    send_data_stream d f ch = (List.range (d * f)).map (fun i => Attempt.mk i (ch i)) := by
  rw [send_data_stream, pacerLoop_eq, List.range_eq_range']

/-! ## Signaling -/

/-- A session description as exchanged over the signaling HTTP surface:
the JSON fields `sdp` and `type`. -/
structure SessionDescription where
  sdp : String
  descType : String
deriving DecidableEq

/-- What the signaling relay answers the client's single POST: an HTTP
status and, when the body parses as a description, that description. -/
structure RelayResponse where
  status : Nat
  body : Option SessionDescription
deriving DecidableEq

/-- Terminal failure of the client's signaling exchange: the
`raise Exception(f"Signaling server error: {response.status}")` on a
non-200 status (client lines 72–73), or a response body without usable
`sdp`/`type` fields. -/
inductive SigError where
  | httpStatus (code : Nat)
  | malformedBody
deriving DecidableEq

/-- Observable outcome of one `connect()` call: how many POST requests it
made, which remote description (if any) it applied via
`setRemoteDescription`, and whether it returned or raised. -/
structure ConnectOutcome where
  requests : Nat
  remoteApplied : Option SessionDescription
  result : Except SigError Unit

/-- The client's `connect()` (client lines 54–79) from the point the offer
has been posted: the body issues exactly one POST (no retry loop); on a
non-200 status it raises before reading the body, so
`setRemoteDescription` is never reached; on a 200 with a well-formed body
it applies the answer as the remote description. -/
def connect (resp : RelayResponse) : ConnectOutcome :=
  if resp.status ≠ 200 then
    ⟨1, none, Except.error (SigError.httpStatus resp.status)⟩
  else
    match resp.body with
    | none => ⟨1, none, Except.error SigError.malformedBody⟩
    | some ans => ⟨1, some ans, Except.ok ()⟩

/-! ## Server: offer handling, registry, message handling -/

/-- Server state: the list `self.connections` of retained peer connections
(server line 27), identified here by the order in which they were created,
and a counter giving the identity of the next `RTCPeerConnection()` the
server will construct. -/
structure ServerState where
  connections : List Nat
  nextId : Nat
deriving DecidableEq

/-- The HTTP response `handle_offer` produces: status 200 with the answer
produced by the fresh session, or status 500 from the `except` branch. -/
structure OfferOutcome where
  status : Nat
  answer : Option Nat
deriving DecidableEq

/-- The server's `handle_offer` (server lines 29–156): unconditionally
constructs a fresh `RTCPeerConnection()` — it never consults the incoming
description or any existing connection — then negotiates.  If negotiation
succeeds (`engineOk`), the connection is appended to `self.connections`
(line 149) and the answer is returned with status 200; if any step raises,
the `except` branch returns status 500 and the fresh connection is never
appended. -/
def handle_offer (s : ServerState) (_offer : SessionDescription) (engineOk : Bool) :
    ServerState × OfferOutcome :=
  if engineOk then
    (⟨s.connections ++ [s.nextId], s.nextId + 1⟩, ⟨200, some s.nextId⟩)
  else
    (⟨s.connections, s.nextId + 1⟩, ⟨500, none⟩)

/-- An inbound data-channel message: aiortc delivers `bytes` for binary
messages and `str` for text messages. -/
inductive ChannelMessage where
  | binary (msg : List Nat)
  | text (msg : String)

/-- The server's `on_message` handler (server lines 44–55): a `bytes`
message is passed to the decode block (whose failure is caught and only
logged); any other message only logs a warning.  Neither branch touches the
server state; the second component reports whether a decode was attempted
and with which result. -/
def on_message (o : ByteOrder) (m : ChannelMessage) (s : ServerState) :
    ServerState × Option (Except MalformedFrameError (List (Nat × Nat × Nat))) :=
  match m with
  | ChannelMessage.binary bs => (s, some (decode o bs))
  | ChannelMessage.text _ => (s, none)

/-- An event the running server reacts to: an inbound offer (with the
negotiation outcome the engine gives it), an inbound data-channel message,
or a peer connection reaching the CLOSED state.  The server registers no
`connectionstatechange` handler, so the last kind runs no server code at
all. -/
inductive ServerEvent where
  | offer (desc : SessionDescription) (engineOk : Bool)
  | message (m : ChannelMessage)
  | connClosed (id : Nat)

/-- Effect of one event on the server state. -/
def serverStep (o : ByteOrder) (s : ServerState) (e : ServerEvent) : ServerState :=
  match e with
  | ServerEvent.offer desc ok => (handle_offer s desc ok).1
  | ServerEvent.message m => (on_message o m s).1
  | ServerEvent.connClosed _ => s

/-- Effect of a whole sequence of events. -/
def serverRun (o : ByteOrder) (s : ServerState) (evs : List ServerEvent) : ServerState :=
  evs.foldl (serverStep o) s

theorem serverStep_connections (o : ByteOrder) (s : ServerState) (e : ServerEvent) :
    ∃ tail, (serverStep o s e).connections = s.connections ++ tail := by
  cases e with
  | offer desc ok =>
    cases ok
    · exact ⟨[], by simp [serverStep, handle_offer]⟩
    · exact ⟨[s.nextId], by simp [serverStep, handle_offer]⟩
  | message m => cases m <;> exact ⟨[], by simp [serverStep, on_message]⟩
  | connClosed id => exact ⟨[], by simp [serverStep]⟩

theorem serverRun_connections (o : ByteOrder) (evs : List ServerEvent) (s : ServerState) :
    ∃ tail, (serverRun o s evs).connections = s.connections ++ tail := by
  induction evs generalizing s with
  | nil => exact ⟨[], by simp [serverRun]⟩
  | cons e evs ih =>
    obtain ⟨t1, h1⟩ := serverStep_connections o s e
    obtain ⟨t2, h2⟩ := ih (serverStep o s e)
    have hrun : serverRun o s (e :: evs) = serverRun o (serverStep o s e) evs := rfl
    exact ⟨t1 ++ t2, by rw [hrun, h2, h1, List.append_assoc]⟩

/-- Decoding exactly the twelve bytes of one three-component sample recovers
that sample, on any host order. -/
theorem decode_three (o : ByteOrder) (m : Nat) (hm : m < 4294967296) :
    decode o (wordBytes o m ++ wordBytes o m ++ wordBytes o m) = Except.ok [(m, m, m)] := by
  have hlen : (wordBytes o m ++ wordBytes o m ++ wordBytes o m).length = 12 := by
    simp [wordBytes_length]
  have htw : toWords o (wordBytes o m ++ wordBytes o m ++ wordBytes o m) = [m, m, m] := by
    rw [List.append_assoc, toWords_wordBytes o m _ hm, toWords_wordBytes o m _ hm,
      ← List.append_nil (wordBytes o m), toWords_wordBytes o m _ hm]
    rfl
  unfold decode
  rw [hlen, htw]
  simp [group3]

/-- The float32 pattern the codec embeds for a representable sequence number
compares equal (as float vs. integer) to that sequence number. -/
theorem f32eqNat_bits (seq : Nat) (hseq : seq ≤ 16777216) :
    f32eqNat (f32bitsOfNat seq) seq = true := by
  unfold f32eqNat
  by_cases h0 : seq = 0
  · subst h0
    decide
  · simp [h0, f32roundNat_of_le seq hseq]

/-! ## Claims -/

/-- C1 (amended): for every pointCount ≥ 1, every host byte order, and every
sequenceNumber ≤ 2^24 — i.e. exactly representable as a 32-bit float —
decoding the bytes produced by encode(sequenceNumber, pointCount) succeeds
and yields a frame whose sample at index 0 has all three components equal,
as float32 values, to sequenceNumber.  (For larger, non-representable
sequence numbers the embedded marker is the nearest representable value, so
the equality fails; see the counterexample.) -/
theorem C1_round_trip (o : ByteOrder) (seq : Nat) (r : Nat × Nat × Nat)
    (rs : List (Nat × Nat × Nat)) (hseq : seq ≤ 16777216)
    (hrs : ∀ t ∈ rs, t.1 < 4294967296 ∧ t.2.1 < 4294967296 ∧ t.2.2 < 4294967296) :
    ∃ m rest, decode o (encode o seq (r :: rs)) = Except.ok ((m, m, m) :: rest) ∧
      f32eqNat m seq = true :=
  ⟨f32bitsOfNat seq, rs, decode_encode o seq r rs hseq hrs, f32eqNat_bits seq hseq⟩

theorem C1_round_trip_witness :
    ∃ m rest, decode ByteOrder.little (encode ByteOrder.little 3 [(0, 0, 0)]) =
      Except.ok ((m, m, m) :: rest) ∧ f32eqNat m 3 = true :=
  C1_round_trip ByteOrder.little 3 (0, 0, 0) [] (by decide) (by decide)

/-- C1, as stated, is false at sequenceNumber = 2^24 + 1 = 16777217 with
pointCount = 1: storing the frame number rounds it to the float32 value
16777216, so the decoded sample at index 0 is (16777216, 16777216, 16777216)
— its components compare equal to 16777216 and not to 16777217.
(1266679808 is the bit pattern of the float32 16777216.0.) -/
theorem C1_round_trip_counterexample :
    decode ByteOrder.little (encode ByteOrder.little 16777217 [(0, 0, 0)]) =
      Except.ok [(1266679808, 1266679808, 1266679808)] ∧
    f32eqNat 1266679808 16777217 = false ∧
    f32eqNat 1266679808 16777216 = true :=
  ⟨rfl, rfl, rfl⟩

/-- C2: decode fails with a MalformedFrameError on every byte string whose
length is not a positive multiple of 12 (in particular on 10-byte and
0-byte inputs), and succeeds with exactly one sample on a 12-byte input. -/
theorem C2_length_validation (o : ByteOrder) (msg : List Nat) :
    (¬ (0 < msg.length ∧ msg.length % 12 = 0) → ∃ e, decode o msg = Except.error e) ∧
    (msg.length = 12 → ∃ w, decode o msg = Except.ok [w]) := by
  constructor
  · intro hno
    by_cases h4 : msg.length % 4 = 0
    · have hwl : (toWords o msg).length = msg.length / 4 := toWords_length o msg
      by_cases h3 : (toWords o msg).length % 3 = 0
      · have hz : msg.length = 0 := by
          rw [hwl] at h3
          omega
        have hmsg : msg = [] := List.length_eq_zero.mp hz
        subst hmsg
        exact ⟨MalformedFrameError.emptyIndex, by simp [decode, toWords, group3]⟩
      · refine ⟨MalformedFrameError.reshapeMismatch, ?_⟩
        unfold decode
        rw [if_neg (not_not.mpr h4), if_pos h3]
    · exact ⟨MalformedFrameError.itemsizeMismatch, by unfold decode; rw [if_pos h4]⟩
  · intro h12
    have h4 : msg.length % 4 = 0 := by omega
    have hwl : (toWords o msg).length = 3 := by
      rw [toWords_length, h12]
    obtain ⟨w0, w1, w2, hw⟩ := List.length_eq_three.mp hwl
    refine ⟨(w0, w1, w2), ?_⟩
    unfold decode
    rw [if_neg (not_not.mpr h4), hw]
    simp [group3]

theorem C2_length_validation_witness :
    (∃ e, decode ByteOrder.little (List.replicate 10 0) = Except.error e) ∧
    (∃ w, decode ByteOrder.little (List.replicate 12 0) = Except.ok [w]) :=
  ⟨(C2_length_validation ByteOrder.little (List.replicate 10 0)).1 (by decide),
   (C2_length_validation ByteOrder.little (List.replicate 12 0)).2 (by decide)⟩

/-- C3: for positive (integer) duration and frequency, a pacing run performs
exactly duration · frequency send attempts — the code computes
`num_frames = duration * frequency` on ints, so the spec's
round(durationSec · frequencyHz) is exactly the product — carrying sequence
numbers 0 .. frameCount−1 in strictly increasing order, one per tick,
whatever outcomes the channel produces. -/
theorem C3_pacing_cardinality (d f : Nat) (ch : Nat → SendOutcome)
    (_hd : 0 < d) (_hf : 0 < f) :
    (send_data_stream d f ch).length = d * f ∧
    (send_data_stream d f ch).map Attempt.seq = List.range (d * f) ∧
    List.Chain' (· < ·) ((send_data_stream d f ch).map Attempt.seq) := by
  have he := send_data_stream_eq d f ch
  have hmap : (send_data_stream d f ch).map Attempt.seq = List.range (d * f) := by
    rw [he, List.map_map]
    have hcomp : (Attempt.seq ∘ fun i => Attempt.mk i (ch i)) = id := rfl
    rw [hcomp, List.map_id]
  refine ⟨?_, hmap, ?_⟩
  · rw [he, List.length_map, List.length_range]
  · rw [hmap]
    exact (List.pairwise_lt_range _).chain'

theorem C3_pacing_cardinality_witness :
    (send_data_stream 10 4 allOpen).length = 10 * 4 ∧
    (send_data_stream 10 4 allOpen).map Attempt.seq = List.range (10 * 4) ∧
    List.Chain' (· < ·) ((send_data_stream 10 4 allOpen).map Attempt.seq) :=
  C3_pacing_cardinality 10 4 allOpen (by decide) (by decide)

/-- C4: if the channel fails the send of some tick (channel closed,
backpressure rejection, or engine error), the `except` clause catches it
and the loop proceeds: the run still performs all duration · frequency
ticks, every sequence number 0 .. frameCount−1 is still attempted in order,
and every tick whose send the channel accepts is delivered. -/
theorem C4_send_failure_resilience (d f : Nat) (ch : Nat → SendOutcome) (t : Nat)
    (e : TransportError) (_hfail : ch t = SendOutcome.failed e) :
    (send_data_stream d f ch).length = d * f ∧
    (send_data_stream d f ch).map Attempt.seq = List.range (d * f) ∧
    (∀ i, i < d * f → ch i = SendOutcome.delivered →
      Attempt.mk i SendOutcome.delivered ∈ send_data_stream d f ch) := by
  have he := send_data_stream_eq d f ch
  refine ⟨by rw [he, List.length_map, List.length_range], ?_, ?_⟩
  · rw [he, List.map_map]
    have hcomp : (Attempt.seq ∘ fun i => Attempt.mk i (ch i)) = id := rfl
    rw [hcomp, List.map_id]
  · intro i hi hok
    rw [he]
    exact List.mem_map.mpr ⟨i, List.mem_range.mpr hi, by simp [hok]⟩

theorem C4_send_failure_resilience_witness :
    (send_data_stream 2 2 oneFail).length = 2 * 2 ∧
    (send_data_stream 2 2 oneFail).map Attempt.seq = List.range (2 * 2) ∧
    (∀ i, i < 2 * 2 → oneFail i = SendOutcome.delivered →
      Attempt.mk i SendOutcome.delivered ∈ send_data_stream 2 2 oneFail) :=
  C4_send_failure_resilience 2 2 oneFail 1 TransportError.backpressure (by decide)

/-- C5 (amended): a pacing run terminates after exactly frameCount =
duration · frequency ticks and never earlier — the loop body has no channel
state check, so when the channel is CLOSED at a tick of the run, that
tick's send is still attempted (it fails with a channel-closed error, which
the `except` clause catches) and the run still performs all remaining
ticks.  The original claim's early termination on CLOSED does not exist in
the code; see the counterexample. -/
theorem C5_termination (d f : Nat) (ch : Nat → SendOutcome) (t : Nat)
    (ht : t < d * f) (hclosed : ch t = SendOutcome.failed TransportError.channelClosed) :
    (send_data_stream d f ch).length = d * f ∧
    Attempt.mk t (SendOutcome.failed TransportError.channelClosed) ∈ send_data_stream d f ch := by
  have he := send_data_stream_eq d f ch
  refine ⟨by rw [he, List.length_map, List.length_range], ?_⟩
  rw [he]
  exact List.mem_map.mpr ⟨t, List.mem_range.mpr ht, by simp [hclosed]⟩

theorem C5_termination_witness :
    (send_data_stream 1 3 allClosed).length = 1 * 3 ∧
    Attempt.mk 0 (SendOutcome.failed TransportError.channelClosed) ∈ send_data_stream 1 3 allClosed :=
  C5_termination 1 3 allClosed 0 (by decide) (by decide)

/-- C5, as stated, is false on the code: with a channel that is CLOSED from
tick 0 onward, a 3-tick run still performs a send attempt at every one of
its 3 ticks — in particular the attempt with sequence number 2 happens two
ticks after the channel was already CLOSED, so the pacer does not stop
performing send attempts once the channel is CLOSED. -/
theorem C5_early_termination_counterexample :
    allClosed 0 = SendOutcome.failed TransportError.channelClosed ∧
    send_data_stream 1 3 allClosed =
      [Attempt.mk 0 (SendOutcome.failed TransportError.channelClosed),
       Attempt.mk 1 (SendOutcome.failed TransportError.channelClosed),
       Attempt.mk 2 (SendOutcome.failed TransportError.channelClosed)] ∧
    Attempt.mk 2 (SendOutcome.failed TransportError.channelClosed)
      ∈ send_data_stream 1 3 allClosed :=
  ⟨rfl, rfl, by decide⟩

/-- C6: when the relay answers the client's single POST with a non-200
status, the exchange fails as a terminal error carrying exactly that
status, exactly one HTTP request was made (the code has no retry loop), and
the client never proceeds to `setRemoteDescription`; symmetrically, on the
server a handshake attempt that fails answers 500 with no answer body and
retains no peer connection in the registry. -/
theorem C6_signaling_failure (resp : RelayResponse) (s : ServerState)
    (desc : SessionDescription) (hst : resp.status ≠ 200) :
    connect resp = ⟨1, none, Except.error (SigError.httpStatus resp.status)⟩ ∧
    (handle_offer s desc false).1.connections = s.connections ∧
    (handle_offer s desc false).2.status = 500 ∧
    (handle_offer s desc false).2.answer = none := by
  refine ⟨?_, rfl, rfl, rfl⟩
  unfold connect
  rw [if_pos hst]

theorem C6_signaling_failure_witness :
    connect ⟨500, none⟩ = ⟨1, none, Except.error (SigError.httpStatus 500)⟩ ∧
    (handle_offer ⟨[], 0⟩ ⟨"v=0", "offer"⟩ false).1.connections = ([] : List Nat) ∧
    (handle_offer ⟨[], 0⟩ ⟨"v=0", "offer"⟩ false).2.status = 500 ∧
    (handle_offer ⟨[], 0⟩ ⟨"v=0", "offer"⟩ false).2.answer = none :=
  C6_signaling_failure ⟨500, none⟩ ⟨[], 0⟩ ⟨"v=0", "offer"⟩ (by decide)

/-- C7: every inbound offer makes the server construct a fresh peer
connection — processing two successfully negotiated offers (even two
textually identical ones) from any well-formed registry state creates two
distinct session identities, neither of which was previously retained, and
both are retained in the registry afterwards. -/
theorem C7_registry_isolation (s : ServerState) (o1 o2 : SessionDescription)
    (hwf : ∀ c ∈ s.connections, c < s.nextId) :
    (handle_offer (handle_offer s o1 true).1 o2 true).1.connections
      = s.connections ++ [s.nextId, s.nextId + 1] ∧
    s.nextId ≠ s.nextId + 1 ∧
    s.nextId ∉ s.connections ∧
    s.nextId + 1 ∉ s.connections ∧
    s.nextId ∈ (handle_offer (handle_offer s o1 true).1 o2 true).1.connections ∧
    s.nextId + 1 ∈ (handle_offer (handle_offer s o1 true).1 o2 true).1.connections := by
  have hconn : (handle_offer (handle_offer s o1 true).1 o2 true).1.connections
      = s.connections ++ [s.nextId, s.nextId + 1] := by
    simp [handle_offer]
  refine ⟨hconn, by omega, ?_, ?_, ?_, ?_⟩
  · intro hmem
    exact absurd (hwf _ hmem) (by omega)
  · intro hmem
    exact absurd (hwf _ hmem) (by omega)
  · rw [hconn]
    simp
  · rw [hconn]
    simp

theorem C7_registry_isolation_witness :
    (handle_offer (handle_offer ⟨[], 0⟩ ⟨"v=0", "offer"⟩ true).1 ⟨"v=0", "offer"⟩ true).1.connections
      = ([] : List Nat) ++ [0, 0 + 1] ∧
    (0 : Nat) ≠ 0 + 1 ∧
    (0 : Nat) ∉ ([] : List Nat) ∧
    (0 : Nat) + 1 ∉ ([] : List Nat) ∧
    (0 : Nat) ∈ (handle_offer (handle_offer ⟨[], 0⟩ ⟨"v=0", "offer"⟩ true).1 ⟨"v=0", "offer"⟩ true).1.connections ∧
    (0 : Nat) + 1 ∈ (handle_offer (handle_offer ⟨[], 0⟩ ⟨"v=0", "offer"⟩ true).1 ⟨"v=0", "offer"⟩ true).1.connections :=
  C7_registry_isolation ⟨[], 0⟩ ⟨"v=0", "offer"⟩ ⟨"v=0", "offer"⟩ (by simp)

/-- C8 (amended): each sample component is written as a 32-bit IEEE-754
float in the byte order of the host CPU (numpy's `float32` dtype and
`tobytes`/`frombuffer` are native-order), and decode reads that same native
layout, so the two sides agree whenever the encoding and decoding hosts
share a byte order.  On a little-endian host the message begins with the
three little-endian 32-bit floats of the (representable) frame sequence
number, and decoding those 12 bytes yields three components equal, as
float32 values, to the sequence number.  The original claim's
"little-endian regardless of host architecture" is refuted by the
counterexample: on a big-endian host the bytes are reversed. -/
theorem C8_wire_layout (seq : Nat) (r : Nat × Nat × Nat)
    (rs : List (Nat × Nat × Nat)) (hseq : seq ≤ 16777216) :
    (∃ rest, encode ByteOrder.little seq (r :: rs) =
      (wordBytes ByteOrder.little (f32bitsOfNat seq) ++
       wordBytes ByteOrder.little (f32bitsOfNat seq) ++
       wordBytes ByteOrder.little (f32bitsOfNat seq)) ++ rest) ∧
    decode ByteOrder.little
      (wordBytes ByteOrder.little (f32bitsOfNat seq) ++
       wordBytes ByteOrder.little (f32bitsOfNat seq) ++
       wordBytes ByteOrder.little (f32bitsOfNat seq)) =
      Except.ok [(f32bitsOfNat seq, f32bitsOfNat seq, f32bitsOfNat seq)] ∧
    f32eqNat (f32bitsOfNat seq) seq = true := by
  have hm : f32marker seq = f32bitsOfNat seq := by
    rw [f32marker, f32roundNat_of_le seq hseq]
  refine ⟨⟨wordsToBytes ByteOrder.little (words3 rs), ?_⟩,
    decode_three ByteOrder.little _ (f32bitsOfNat_lt seq hseq),
    f32eqNat_bits seq hseq⟩
  rw [encode]
  show wordsToBytes ByteOrder.little
      (f32marker seq :: f32marker seq :: f32marker seq :: words3 rs) = _
  rw [wordsToBytes, wordsToBytes, wordsToBytes, hm]
  simp [List.append_assoc]

theorem C8_wire_layout_witness :
    (∃ rest, encode ByteOrder.little 1 [(0, 0, 0), (7, 8, 9)] =
      (wordBytes ByteOrder.little (f32bitsOfNat 1) ++
       wordBytes ByteOrder.little (f32bitsOfNat 1) ++
       wordBytes ByteOrder.little (f32bitsOfNat 1)) ++ rest) ∧
    decode ByteOrder.little
      (wordBytes ByteOrder.little (f32bitsOfNat 1) ++
       wordBytes ByteOrder.little (f32bitsOfNat 1) ++
       wordBytes ByteOrder.little (f32bitsOfNat 1)) =
      Except.ok [(f32bitsOfNat 1, f32bitsOfNat 1, f32bitsOfNat 1)] ∧
    f32eqNat (f32bitsOfNat 1) 1 = true :=
  C8_wire_layout 1 (0, 0, 0) [(7, 8, 9)] (by decide)

/-- C8, as stated, is false: the codec writes in the host CPU's byte order,
not in little-endian order regardless of architecture — on a big-endian
host, encoding sequence number 1 (float32 bit pattern 0x3F800000) with one
point produces the bytes 3F 80 00 00 per component, while a little-endian
host produces 00 00 80 3F, so the emitted layout depends on the host. -/
theorem C8_endianness_counterexample :
    encode ByteOrder.big 1 [(0, 0, 0)] ≠ encode ByteOrder.little 1 [(0, 0, 0)] ∧
    encode ByteOrder.big 1 [(0, 0, 0)] = [63, 128, 0, 0, 63, 128, 0, 0, 63, 128, 0, 0] ∧
    encode ByteOrder.little 1 [(0, 0, 0)] = [0, 0, 128, 63, 0, 0, 128, 63, 0, 0, 128, 63] :=
  ⟨by decide, rfl, rfl⟩

/-- C9: no operation of the running server ever removes a peer connection
from the registry — across any sequence of events (offers that succeed or
fail, binary or text channel messages, peer connections reaching CLOSED)
the `self.connections` list only grows by appending, so every previously
retained session is still retained afterwards, even after its connection
has reached CLOSED. -/
theorem C9_registry_monotone (o : ByteOrder) (s : ServerState) (evs : List ServerEvent) :
    (∃ tail, (serverRun o s evs).connections = s.connections ++ tail) ∧
    ∀ c ∈ s.connections, c ∈ (serverRun o s evs).connections := by
  obtain ⟨tail, h⟩ := serverRun_connections o evs s
  exact ⟨⟨tail, h⟩, fun c hc => h ▸ List.mem_append_left _ hc⟩

/-- C10: an inbound channel message that is not a byte string (a text
message) is never passed to the frame decoder and leaves the server state
unchanged; a byte message is exactly what is passed to the decoder, equally
without touching the server state. -/
theorem C10_non_binary_ignored (o : ByteOrder) (s : ServerState) (txt : String)
    (bs : List Nat) :
    on_message o (ChannelMessage.text txt) s = (s, none) ∧
    on_message o (ChannelMessage.binary bs) s = (s, some (decode o bs)) :=
  ⟨rfl, rfl⟩
